import Mathlib

/-!
Verification of the metrics pipeline of the grain-distribution dashboard
(`app.py`).  The pandas tables are embedded as Lean lists of records and the
derived metrics as executable functions over them.  Real-number quantities
(tons) are modelled exactly by `ℚ`; days are `ℤ` (the feasibility window can
reach below day 1).
-/

namespace GrainDash

/-- A CG→LG dispatch record (sheet `CG_to_LG_Dispatch`): columns
`Dispatch_Day`, destination LG id, `Quantity_tons`. -/
structure CGDispatch where
  dispatch_day : ℤ
  lg_id : ℕ
  quantity_tons : ℚ
deriving DecidableEq, Repr

/-- An LG→FPS dispatch record (sheet `LG_to_FPS_Dispatch`): columns `Day`,
origin LG id, `FPS_ID`, `Vehicle_ID`, `Quantity_tons`. -/
structure LGDispatch where
  day : ℤ
  lg_id : ℕ
  fps_id : ℕ
  vehicle_id : ℕ
  quantity_tons : ℚ
deriving DecidableEq, Repr

/-- Entity type tag of a stock snapshot (column `Entity_Type`). -/
inductive Entity where
  | LG : Entity
  | FPS : Entity
deriving DecidableEq, Repr

/-- A stock snapshot row (sheet `Stock_Levels`): `Entity_Type`, `Entity_ID`,
`Day`, `Stock_Level_tons`. -/
structure StockSnapshot where
  entity_type : Entity
  entity_id : ℕ
  day : ℤ
  stock_level_tons : ℚ
deriving DecidableEq, Repr

/-- An FPS registry row (sheet `FPS`): `FPS_ID`, `Reorder_Threshold_tons`
(the `FPS_Name` column plays no role in any claim and is omitted). -/
structure FPSInfo where
  fps_id : ℕ
  reorder_threshold_tons : ℚ
deriving DecidableEq, Repr

/-- An LG registry row (sheet `LGs`): `LG_ID`, `Storage_Capacity_tons`. -/
structure LGInfo where
  lg_id : ℕ
  storage_capacity_tons : ℚ
deriving DecidableEq, Repr

/-! ### 4.1 Feasibility window (app.py lines 41–51)

`daily_total_cg.get(d, 0)` yields the per-day demand; the loop accumulates
`cum_need`, computes `over = (cum_need - DAILY_CAP*d)/DAILY_CAP`, appends
`ceil(over) if over>0 else 0`, and takes `X = max(adv)`.  We parametrise by the
demand sequence `demand : ℕ → ℚ` (day ↦ summed quantity) exactly as the loop
reads it. -/

/-- `daily_total_cg.get(d, 0)`: the summed CG→LG quantity dispatched on day
`d` (0 when no record mentions day `d`). -/
def daily_total_cg (recs : List CGDispatch) (d : ℤ) : ℚ :=
  ((recs.filter (fun r => r.dispatch_day = d)).map (fun r => r.quantity_tons)).sum

/-- `cum_need` after the loop iteration for day `d`: demand summed over days
`1..d`. -/
def cumNeed (demand : ℕ → ℚ) (d : ℕ) : ℚ :=
  ((List.range d).map (fun i => demand (i + 1))).sum

/-- The value appended to `adv` for day `d`:
`math.ceil(over) if over > 0 else 0` with
`over = (cum_need - DAILY_CAP*d)/DAILY_CAP`. -/
def advDay (cap : ℚ) (demand : ℕ → ℚ) (d : ℕ) : ℤ :=
  if 0 < (cumNeed demand d - cap * d) / cap
  then ⌈(cumNeed demand d - cap * d) / cap⌉ else 0

/-- `X = max(adv)`.  For a nonempty `adv` whose entries are all nonnegative
(both always hold when `DAYS ≥ 1`), Python's `max` agrees with a fold of
`max` seeded with 0. -/
def leadTimeX (cap : ℚ) (demand : ℕ → ℚ) (DAYS : ℕ) : ℤ :=
  ((List.range DAYS).map (fun i => advDay cap demand (i + 1))).foldr max 0

/-- `MIN_DAY = 1 - X` (app.py line 50). -/
def minDay (cap : ℚ) (demand : ℕ → ℚ) (DAYS : ℕ) : ℤ :=
  1 - leadTimeX cap demand DAYS

/-- `MAX_DAY = DAYS` (app.py line 51). -/
def maxDay (DAYS : ℕ) : ℤ := (DAYS : ℤ)

/-- The slider bounds `(min_value, max_value)` handed to the day-range
selector (app.py lines 94–98). -/
def dayRangeBounds (cap : ℚ) (demand : ℕ → ℚ) (DAYS : ℕ) : ℤ × ℤ :=
  (minDay cap demand DAYS, maxDay DAYS)

lemma foldr_max_nonneg (l : List ℤ) : 0 ≤ l.foldr max 0 := by
  induction l with
  | nil => simp
  | cons a l ih => simpa using Or.inr ih

lemma le_foldr_max_of_mem {a : ℤ} {l : List ℤ} (h : a ∈ l) : a ≤ l.foldr max 0 := by
  induction l with
  | nil => cases h
  | cons b l ih =>
    rcases List.mem_cons.mp h with rfl | h
    · exact le_max_left _ _
    · exact le_trans (ih h) (le_max_right _ _)

lemma foldr_max_le {l : List ℤ} {b : ℤ} (hb : 0 ≤ b) (h : ∀ a ∈ l, a ≤ b) :
    l.foldr max 0 ≤ b := by
  induction l with
  | nil => simpa using hb
  | cons a l ih =>
    simp only [List.foldr_cons, max_le_iff]
    exact ⟨h a (List.mem_cons_self a l), ih fun x hx => h x (List.mem_cons_of_mem a hx)⟩

lemma advDay_nonneg (cap : ℚ) (demand : ℕ → ℚ) (d : ℕ) : 0 ≤ advDay cap demand d := by
  unfold advDay
  split
  · next h => exact le_of_lt (Int.lt_ceil.mpr (by simpa using h))
  · exact le_refl 0

lemma leadTimeX_nonneg (cap : ℚ) (demand : ℕ → ℚ) (DAYS : ℕ) :
    0 ≤ leadTimeX cap demand DAYS :=
  foldr_max_nonneg _

lemma advDay_le_leadTimeX (cap : ℚ) (demand : ℕ → ℚ) {DAYS d : ℕ}
    (h1 : 1 ≤ d) (h2 : d ≤ DAYS) :
    advDay cap demand d ≤ leadTimeX cap demand DAYS := by
  apply le_foldr_max_of_mem
  refine List.mem_map.mpr ⟨d - 1, List.mem_range.mpr (by omega), ?_⟩
  congr 1
  omega

/-- **C1.** For every horizon `DAYS ≥ 1`, positive `DAILY_CAP`, and
non-negative daily demand sequence, the lead time `X` computed by the loop at
app.py lines 41–49 is the smallest non-negative integer such that cumulative
demand through every day `d` in `1..DAYS` is at most `DAILY_CAP * (d + X)`. -/
theorem C1_leadTime_least (DAYS : ℕ) (cap : ℚ) (demand : ℕ → ℚ)
    (hD : 1 ≤ DAYS) (hcap : 0 < cap) (hdem : ∀ d, 0 ≤ demand d) :
    0 ≤ leadTimeX cap demand DAYS ∧
    (∀ d : ℕ, 1 ≤ d → d ≤ DAYS →
      cumNeed demand d ≤ cap * ((d : ℚ) + (leadTimeX cap demand DAYS : ℚ))) ∧
    (∀ Y : ℤ, 0 ≤ Y →
      (∀ d : ℕ, 1 ≤ d → d ≤ DAYS → cumNeed demand d ≤ cap * ((d : ℚ) + (Y : ℚ))) →
      leadTimeX cap demand DAYS ≤ Y) := by
  have hcap' : cap ≠ 0 := ne_of_gt hcap
  refine ⟨leadTimeX_nonneg cap demand DAYS, ?_, ?_⟩
  · intro d h1 h2
    have hX : advDay cap demand d ≤ leadTimeX cap demand DAYS :=
      advDay_le_leadTimeX cap demand h1 h2
    set X := leadTimeX cap demand DAYS with hXdef
    have hX0 : (0 : ℤ) ≤ X := leadTimeX_nonneg cap demand DAYS
    by_cases hover : 0 < (cumNeed demand d - cap * d) / cap
    · have hadv : advDay cap demand d = ⌈(cumNeed demand d - cap * d) / cap⌉ := by
        unfold advDay
        simp [hover]
      have hceil : (cumNeed demand d - cap * d) / cap ≤ (X : ℚ) := by
        have h1 : (cumNeed demand d - cap * d) / cap ≤ (⌈(cumNeed demand d - cap * d) / cap⌉ : ℚ) :=
          Int.le_ceil _
        have h2 : ((⌈(cumNeed demand d - cap * d) / cap⌉ : ℤ) : ℚ) ≤ (X : ℚ) := by
          exact_mod_cast hadv ▸ hX
        linarith
      have hmul : cumNeed demand d - cap * d ≤ cap * (X : ℚ) := by
        have := (div_le_iff₀ hcap).mp hceil
        linarith [this]
      linarith [hmul]
    · push_neg at hover
      have hnum : cumNeed demand d - cap * d ≤ 0 := by
        by_contra hpos
        push_neg at hpos
        exact absurd (div_pos hpos hcap) (not_lt.mpr hover)
      have hXq : (0 : ℚ) ≤ (X : ℚ) := by exact_mod_cast hX0
      nlinarith [hXq, hcap.le]
  · intro Y hY hall
    apply foldr_max_le hY
    intro a ha
    rcases List.mem_map.mp ha with ⟨i, hi, rfl⟩
    have hi' : i + 1 ≤ DAYS := List.mem_range.mp hi
    have hd := hall (i + 1) (by omega) hi'
    unfold advDay
    split
    · next hover =>
      rw [Int.ceil_le]
      rw [div_le_iff₀ hcap]
      have : cap * (((i : ℚ) + 1) + (Y : ℚ)) = cap * ((i : ℚ) + 1) + (Y : ℚ) * cap := by ring
      push_cast at hd ⊢
      nlinarith [hd]
    · exact hY

/-- Witness for C1 at `DAYS = 1`, `cap = 1`, constant demand 2:
`X = ⌈(2-1)/1⌉ = 1` and indeed 2 ≤ 1*(1+1) while 2 > 1*(1+0). -/
theorem C1_leadTime_least_witness :
    0 ≤ leadTimeX 1 (fun _ => 2) 1 ∧
    (∀ d : ℕ, 1 ≤ d → d ≤ 1 →
      cumNeed (fun _ => 2) d ≤ 1 * ((d : ℚ) + (leadTimeX 1 (fun _ => 2) 1 : ℚ))) ∧
    (∀ Y : ℤ, 0 ≤ Y →
      (∀ d : ℕ, 1 ≤ d → d ≤ 1 → cumNeed (fun _ => 2) d ≤ 1 * ((d : ℚ) + (Y : ℚ))) →
      leadTimeX 1 (fun _ => 2) 1 ≤ Y) :=
  C1_leadTime_least 1 1 (fun _ => 2) (le_refl 1) (by norm_num) (fun _ => by norm_num)

/-- **C5.** Under the same hypotheses, `X` is a non-negative integer and the
slider bounds are exactly `(1 - X, DAYS)`, i.e. the closed interval
`[1 − X, horizon_length]`. -/
theorem C5_slider_bounds (DAYS : ℕ) (cap : ℚ) (demand : ℕ → ℚ)
    (hD : 1 ≤ DAYS) (hcap : 0 < cap) (hdem : ∀ d, 0 ≤ demand d) :
    0 ≤ leadTimeX cap demand DAYS ∧
    dayRangeBounds cap demand DAYS =
      (1 - leadTimeX cap demand DAYS, (DAYS : ℤ)) :=
  ⟨leadTimeX_nonneg cap demand DAYS, rfl⟩

/-- Witness for C5 at `DAYS = 1`, `cap = 1`, constant demand 2 (where
`X = 1`, so the bounds are `(0, 1)`). -/
theorem C5_slider_bounds_witness :
    0 ≤ leadTimeX 1 (fun _ => 2) 1 ∧
    dayRangeBounds 1 (fun _ => 2) 1 = (1 - leadTimeX 1 (fun _ => 2) 1, (1 : ℤ)) :=
  C5_slider_bounds 1 1 (fun _ => 2) (le_refl 1) (by norm_num) (fun _ => by norm_num)

/-! ### 4.2 Aggregation views (app.py lines 54–85) -/

/-- `day_totals_cg`: `dispatch_cg.groupby("Dispatch_Day")["Quantity_tons"].sum()`
as a table of (day, total) rows, one row per distinct day. -/
def day_totals_cg (recs : List CGDispatch) : List (ℤ × ℚ) :=
  ((recs.map (fun r => r.dispatch_day)).dedup).map
    (fun d => (d, ((recs.filter (fun r => r.dispatch_day = d)).map
      (fun r => r.quantity_tons)).sum))

/-- `day_totals_lg`: `dispatch_lg.groupby("Day")["Quantity_tons"].sum()`. -/
def day_totals_lg (recs : List LGDispatch) : List (ℤ × ℚ) :=
  ((recs.map (fun r => r.day)).dedup).map
    (fun d => (d, ((recs.filter (fun r => r.day = d)).map
      (fun r => r.quantity_tons)).sum))

lemma sum_map_add {α : Type} (u v : α → ℚ) (l : List α) :
    (l.map (fun x => u x + v x)).sum = (l.map u).sum + (l.map v).sum := by
  induction l with
  | nil => simp
  | cons a l ih => simp [ih]; ring

lemma sum_map_ite_eq {κ : Type} [DecidableEq κ] (keys : List κ) (hnd : keys.Nodup)
    (k0 : κ) (hk : k0 ∈ keys) (c : ℚ) :
    (keys.map (fun k => if k0 = k then c else 0)).sum = c := by
  induction keys with
  | nil => cases hk
  | cons k ks ih =>
    rcases List.mem_cons.mp hk with rfl | hk'
    · have hzero : (ks.map (fun k => if k0 = k then c else 0)).sum = 0 := by
        apply List.sum_eq_zero
        intro x hx
        rcases List.mem_map.mp hx with ⟨k', hk', rfl⟩
        have : k0 ≠ k' := fun h => (List.nodup_cons.mp hnd).1 (h ▸ hk')
        simp [this]
      simp [hzero]
    · have hne : k0 ≠ k := fun h => (List.nodup_cons.mp hnd).1 (h ▸ hk')
      simp only [List.map_cons, List.sum_cons, if_neg hne, zero_add]
      exact ih (List.nodup_cons.mp hnd).2 hk'

lemma sum_groupby_eq_sum {α κ : Type} [DecidableEq κ] (f : α → κ) (g : α → ℚ)
    (keys : List κ) (hnd : keys.Nodup) (l : List α) (hcov : ∀ x ∈ l, f x ∈ keys) :
    (keys.map (fun k => ((l.filter (fun x => f x = k)).map g).sum)).sum =
      (l.map g).sum := by
  induction l with
  | nil => simp
  | cons a l ih =>
    have hsplit : ∀ k : κ,
        (((a :: l).filter (fun x => f x = k)).map g).sum =
          (if f a = k then g a else 0) +
            ((l.filter (fun x => f x = k)).map g).sum := by
      intro k
      by_cases h : f a = k <;> simp [List.filter_cons, h]
    have hrw : (keys.map (fun k => (((a :: l).filter (fun x => f x = k)).map g).sum)) =
        keys.map (fun k => (if f a = k then g a else 0) +
          ((l.filter (fun x => f x = k)).map g).sum) := by
      apply List.map_congr_left
      intro k _
      exact hsplit k
    rw [hrw, sum_map_add]
    have h1 : (keys.map (fun k => if f a = k then g a else 0)).sum = g a :=
      sum_map_ite_eq keys hnd (f a) (hcov a (List.mem_cons_self a l)) (g a)
    have h2 := ih (fun x hx => hcov x (List.mem_cons_of_mem a hx))
    simp only [List.map_cons, List.sum_cons]
    rw [h1, h2]

/-- **C7.** The group-by aggregation of CG→LG dispatches is loss-free: the sum
of the per-day totals equals the sum of all raw `Quantity_tons` values. -/
theorem C7_groupby_lossfree (recs : List CGDispatch) :
    ((day_totals_cg recs).map Prod.snd).sum =
      (recs.map (fun r => r.quantity_tons)).sum := by
  unfold day_totals_cg
  rw [List.map_map]
  have : (Prod.snd ∘ fun d => (d, ((recs.filter (fun r => r.dispatch_day = d)).map
      (fun r => r.quantity_tons)).sum)) =
      fun d => ((recs.filter (fun r => r.dispatch_day = d)).map
        (fun r => r.quantity_tons)).sum := rfl
  rw [this]
  exact sum_groupby_eq_sum (fun r => r.dispatch_day) (fun r => r.quantity_tons)
    _ (List.nodup_dedup _) recs
    (fun x hx => List.mem_dedup.mpr (List.mem_map_of_mem (fun r => r.dispatch_day) hx))

/-! ### LG stock timeline (app.py lines 71–75)

`stock_levels[stock_levels.Entity_Type=="LG"].pivot(index="Day",
columns="Entity_ID", values="Stock_Level_tons").fillna(method="ffill")`.
The pivot index is the sorted set of days appearing among LG snapshots; a
missing (day, LG) cell is `NaN` (here `none`); `ffill` carries the last seen
value down each column. -/

/-- The row index of the pivot: distinct LG-snapshot days, ascending. -/
def lgDays (snaps : List StockSnapshot) : List ℤ :=
  List.insertionSort (· ≤ ·)
    (((snaps.filter (fun s => s.entity_type = Entity.LG)).map (fun s => s.day)).dedup)

/-- The raw pivot cell for LG `lg` at day `d`: the stock level of the
matching snapshot (pandas `pivot` assumes at most one snapshot per entity per
day), `none` when no snapshot exists there. -/
def pivotCell (snaps : List StockSnapshot) (lg : ℕ) (d : ℤ) : Option ℚ :=
  ((snaps.filter (fun s =>
    s.entity_type = Entity.LG ∧ s.entity_id = lg ∧ s.day = d)).map
      (fun s => s.stock_level_tons)).head?

/-- One raw pivot column for LG `lg`, rows in ascending day order. -/
def rawColumn (snaps : List StockSnapshot) (lg : ℕ) : List (Option ℚ) :=
  (lgDays snaps).map (pivotCell snaps lg)

/-- `fillna(method="ffill")` down one column: a missing cell receives the
last value seen above it (the carry), which starts out absent. -/
def ffillAux (carry : Option ℚ) : List (Option ℚ) → List (Option ℚ)
  | [] => []
  | none :: rest => carry :: ffillAux carry rest
  | some v :: rest => some v :: ffillAux (some v) rest

/-- Forward-fill of a whole column (initial carry: nothing above row 0). -/
def ffill (col : List (Option ℚ)) : List (Option ℚ) := ffillAux none col

/-- The forward-filled `lg_stock` column of LG `lg`. -/
def lg_stock_col (snaps : List StockSnapshot) (lg : ℕ) : List (Option ℚ) :=
  ffill (rawColumn snaps lg)

lemma ffillAux_idem (col : List (Option ℚ)) :
    ∀ c, ffillAux c (ffillAux c col) = ffillAux c col := by
  induction col with
  | nil => intro c; rfl
  | cons o rest ih =>
    intro c
    cases o with
    | some v => simp [ffillAux, ih (some v)]
    | none =>
      cases c with
      | none => simp [ffillAux, ih none]
      | some w => simp [ffillAux, ih (some w)]

lemma ffillAux_length (col : List (Option ℚ)) :
    ∀ c, (ffillAux c col).length = col.length := by
  induction col with
  | nil => intro c; rfl
  | cons o rest ih =>
    intro c
    cases o with
    | some v => simp [ffillAux, ih]
    | none => simp [ffillAux, ih]

/-- Any value produced by the fill comes from a cell at or above the current
row, or from the initial carry. -/
lemma ffillAux_mem_source (col : List (Option ℚ)) :
    ∀ c i v, (ffillAux c col).get? i = some (some v) →
      (∃ j, j ≤ i ∧ col.get? j = some (some v)) ∨ c = some v := by
  induction col with
  | nil => intro c i v h; simp [ffillAux] at h
  | cons o rest ih =>
    intro c i v h
    cases o with
    | some w =>
      cases i with
      | zero =>
        simp [ffillAux] at h
        exact Or.inl ⟨0, le_refl 0, by simp [h]⟩
      | succ n =>
        simp only [ffillAux, List.get?_cons_succ] at h
        rcases ih (some w) n v h with ⟨j, hj, hcell⟩ | hc
        · exact Or.inl ⟨j + 1, by omega, by simpa using hcell⟩
        · exact Or.inl ⟨0, by omega, by simp [hc.symm]⟩
    | none =>
      cases i with
      | zero =>
        simp [ffillAux] at h
        exact Or.inr h
      | succ n =>
        simp only [ffillAux, List.get?_cons_succ] at h
        rcases ih c n v h with ⟨j, hj, hcell⟩ | hc
        · exact Or.inl ⟨j + 1, by omega, by simpa using hcell⟩
        · exact Or.inr hc

lemma lgDays_sorted (snaps : List StockSnapshot) :
    List.Sorted (· ≤ ·) (lgDays snaps) :=
  List.sorted_insertionSort _ _

lemma lgDays_get?_mono (snaps : List StockSnapshot) {i j : ℕ} {di dj : ℤ}
    (hij : j ≤ i) (hj : (lgDays snaps).get? j = some dj)
    (hi : (lgDays snaps).get? i = some di) : dj ≤ di := by
  rcases List.get?_eq_some.mp hj with ⟨hjl, rfl⟩
  rcases List.get?_eq_some.mp hi with ⟨hil, rfl⟩
  exact (lgDays_sorted snaps).rel_get_of_le (by exact_mod_cast hij)

/-- **C4.** The LG-timeline forward-fill is idempotent, and every filled
cell for (row `i` = day `d_i`, LG `lg`) carries the value of a snapshot of
that LG taken at a day `d_j ≤ d_i` — never a future value. -/
theorem C4_ffill_idempotent_no_future (snaps : List StockSnapshot) (lg : ℕ) :
    ffill (ffill (rawColumn snaps lg)) = ffill (rawColumn snaps lg) ∧
    (∀ i v, (lg_stock_col snaps lg).get? i = some (some v) →
      ∃ j dj di, j ≤ i ∧ (lgDays snaps).get? j = some dj ∧
        (lgDays snaps).get? i = some di ∧ dj ≤ di ∧
        ∃ s ∈ snaps, s.entity_type = Entity.LG ∧ s.entity_id = lg ∧
          s.day = dj ∧ s.stock_level_tons = v) := by
  constructor
  · exact ffillAux_idem _ none
  · intro i v h
    rcases ffillAux_mem_source (rawColumn snaps lg) none i v h with ⟨j, hj, hcell⟩ | hc
    · have hjmap := hcell
      rw [rawColumn, List.get?_map] at hjmap
      rcases Option.map_eq_some'.mp hjmap with ⟨dj, hdj, hpc⟩
      have hilen : i < (lg_stock_col snaps lg).length := (List.get?_eq_some.mp h).1
      have hilen' : i < (lgDays snaps).length := by
        have h1 : (lg_stock_col snaps lg).length = (rawColumn snaps lg).length :=
          ffillAux_length _ none
        have h2 : (rawColumn snaps lg).length = (lgDays snaps).length := by
          simp [rawColumn]
        omega
      rcases List.get?_eq_some.mpr ⟨hilen', rfl⟩ with hdi
      refine ⟨j, dj, (lgDays snaps).get ⟨i, hilen'⟩, hj, hdj, hdi, ?_, ?_⟩
      · exact lgDays_get?_mono snaps hj hdj hdi
      · unfold pivotCell at hpc
        cases hfl : snaps.filter (fun s =>
            s.entity_type = Entity.LG ∧ s.entity_id = lg ∧ s.day = dj) with
        | nil => rw [hfl] at hpc; simp at hpc
        | cons s t =>
          rw [hfl] at hpc
          have hsv : s.stock_level_tons = v := by simpa using hpc
          have hsf : s ∈ snaps.filter (fun s =>
              s.entity_type = Entity.LG ∧ s.entity_id = lg ∧ s.day = dj) := by
            rw [hfl]; exact List.mem_cons_self s t
          have hs := List.mem_filter.mp hsf
          have hprop : s.entity_type = Entity.LG ∧ s.entity_id = lg ∧ s.day = dj := by
            simpa using hs.2
          exact ⟨s, hs.1, hprop.1, hprop.2.1, hprop.2.2, hsv⟩
    · cases hc

/-- Witness for C4: a single LG snapshot (LG 1, day 2, level 5):
filling its one-column timeline twice equals filling once, and the filled
cell at row 0 traces back to a snapshot at a day ≤ its own day. -/
theorem C4_ffill_idempotent_no_future_witness :
    ffill (ffill (rawColumn [⟨Entity.LG, 1, 2, 5⟩] 1)) =
      ffill (rawColumn [⟨Entity.LG, 1, 2, 5⟩] 1) ∧
    (∃ j dj di, j ≤ 0 ∧ (lgDays [⟨Entity.LG, 1, 2, 5⟩]).get? j = some dj ∧
      (lgDays [⟨Entity.LG, 1, 2, 5⟩]).get? 0 = some di ∧ dj ≤ di ∧
      ∃ s ∈ [(⟨Entity.LG, 1, 2, 5⟩ : StockSnapshot)],
        s.entity_type = Entity.LG ∧ s.entity_id = 1 ∧
        s.day = dj ∧ s.stock_level_tons = 5) :=
  ⟨(C4_ffill_idempotent_no_future [⟨Entity.LG, 1, 2, 5⟩] 1).1,
   (C4_ffill_idempotent_no_future [⟨Entity.LG, 1, 2, 5⟩] 1).2 0 5 (by rfl)⟩

/-- pandas `.sum()` over a row slice of the timeline: missing (`NaN`) cells
are skipped (`skipna=True`), not read as numbers. -/
def optSum (cells : List (Option ℚ)) : ℚ := (cells.filterMap id).sum

/-- Index of day `d` in the pivot row index. -/
def dayIndex (snaps : List StockSnapshot) (d : ℤ) : ℕ := (lgDays snaps).indexOf d

/-- The forward-filled cell of LG `lg` in the row of day `d`. -/
def cellAt (snaps : List StockSnapshot) (lg : ℕ) (d : ℤ) : Option ℚ :=
  (lg_stock_col snaps lg).getD (dayIndex snaps d) none

/-- `lg_onhand = lg_stock.loc[end_day, selected_lgs].sum()` (app.py 227). -/
def lg_onhand (snaps : List StockSnapshot) (selected : List ℕ) (d : ℤ) : ℚ :=
  optSum (selected.map (fun lg => cellAt snaps lg d))

/-- **C10.** Cells of the LG timeline before an LG's first snapshot stay
missing after forward-fill (no value is invented), and the downstream
on-hand sum treats a missing cell as absent: removing it from the selection
does not change the sum. -/
theorem C10_no_backfill_before_first (snaps : List StockSnapshot) (lg : ℕ) :
    (∀ i d, (lgDays snaps).get? i = some d →
      (∀ s ∈ snaps, s.entity_type = Entity.LG → s.entity_id = lg → d < s.day) →
      (lg_stock_col snaps lg).get? i = some none) ∧
    (∀ selected d, cellAt snaps lg d = none →
      lg_onhand snaps (lg :: selected) d = lg_onhand snaps selected d) := by
  constructor
  · intro i d hd hfut
    have hilen : i < (lgDays snaps).length := (List.get?_eq_some.mp hd).1
    have hlen : i < (lg_stock_col snaps lg).length := by
      have h1 : (lg_stock_col snaps lg).length = (rawColumn snaps lg).length :=
        ffillAux_length _ none
      have h2 : (rawColumn snaps lg).length = (lgDays snaps).length := by
        simp [rawColumn]
      omega
    rcases List.get?_eq_some.mpr ⟨hlen, rfl⟩ with hcell
    set x := (lg_stock_col snaps lg).get ⟨i, hlen⟩ with hx
    cases hxv : x with
    | none => rw [hxv] at hcell; exact hcell
    | some v =>
      exfalso
      rw [hxv] at hcell
      rcases (C4_ffill_idempotent_no_future snaps lg).2 i v hcell with
        ⟨j, dj, di, hji, hdj, hdi, hdjdi, s, hs, hsLG, hsid, hsday, hsv⟩
      have hdieq : di = d := by
        rw [hd] at hdi; exact (Option.some_injective _ hdi).symm
      have := hfut s hs hsLG hsid
      omega
  · intro selected d hcell
    unfold lg_onhand optSum
    simp [hcell]

/-- Witness for C10: two LG snapshots (LG 1 at day 1, LG 2 at day 2).  In
LG 2's column the cell at row 0 (day 1, strictly before LG 2's first
snapshot at day 2) stays missing after the fill, and dropping LG 2 from the
selection at day 1 leaves the on-hand sum unchanged. -/
theorem C10_no_backfill_before_first_witness :
    (lg_stock_col [⟨Entity.LG, 1, 1, 5⟩, ⟨Entity.LG, 2, 2, 7⟩] 2).get? 0 =
      some none ∧
    lg_onhand [⟨Entity.LG, 1, 1, 5⟩, ⟨Entity.LG, 2, 2, 7⟩] [2, 1] 1 =
      lg_onhand [⟨Entity.LG, 1, 1, 5⟩, ⟨Entity.LG, 2, 2, 7⟩] [1] 1 :=
  ⟨(C10_no_backfill_before_first [⟨Entity.LG, 1, 1, 5⟩, ⟨Entity.LG, 2, 2, 7⟩] 2).1
      0 1 (by rfl) (by decide),
   (C10_no_backfill_before_first [⟨Entity.LG, 1, 1, 5⟩, ⟨Entity.LG, 2, 2, 7⟩] 2).2
      [1] 1 (by rfl)⟩

/-! ### FPS stock and at-risk flag (app.py lines 78–82) -/

/-- One row of `fps_stock` after the merge of FPS snapshots with the FPS
registry, including the boolean `At_Risk` column of line 82. -/
structure FPSStockRow where
  day : ℤ
  fps_id : ℕ
  stock_level_tons : ℚ
  reorder_threshold_tons : ℚ
deriving DecidableEq, Repr

/-- `fps_stock["At_Risk"] = Stock_Level_tons <= Reorder_Threshold_tons`. -/
def at_risk (r : FPSStockRow) : Bool :=
  r.stock_level_tons ≤ r.reorder_threshold_tons

/-- `fps_stock`: inner join of FPS snapshots with the registry on the shop
id (`merge(..., left_on="Entity_ID", right_on="FPS_ID")`). -/
def fps_stock (snaps : List StockSnapshot) (reg : List FPSInfo) :
    List FPSStockRow :=
  (snaps.filter (fun s => s.entity_type = Entity.FPS)).flatMap (fun s =>
    (reg.filter (fun f => f.fps_id = s.entity_id)).map (fun f =>
      ⟨s.day, f.fps_id, s.stock_level_tons, f.reorder_threshold_tons⟩))

/-- **C8.** In every joined FPS stock row the at-risk flag is true exactly
when the stock level is at most the reorder threshold, and the boundary is
inclusive: stock 10.0 against threshold 10 is flagged. -/
theorem C8_at_risk_iff_le (snaps : List StockSnapshot) (reg : List FPSInfo) :
    (∀ r ∈ fps_stock snaps reg,
      (at_risk r = true ↔ r.stock_level_tons ≤ r.reorder_threshold_tons)) ∧
    at_risk ⟨1, 1, 10, 10⟩ = true := by
  refine ⟨fun r _ => ?_, by decide⟩
  unfold at_risk
  exact decide_eq_true_iff

/-- Witness for C8: the shop with threshold 10 and stock 10 appears in a
concrete join and its flag is true. -/
theorem C8_at_risk_iff_le_witness :
    (at_risk ⟨1, 1, 10, 10⟩ = true ↔ (10 : ℚ) ≤ (10 : ℚ)) ∧
    at_risk ⟨1, 1, 10, 10⟩ = true :=
  ⟨(C8_at_risk_iff_le [⟨Entity.FPS, 1, 1, 10⟩] [⟨1, 10⟩]).1 ⟨1, 1, 10, 10⟩
      (by decide),
   (C8_at_risk_iff_le [⟨Entity.FPS, 1, 1, 10⟩] [⟨1, 10⟩]).2⟩

/-! ### Plan progress and days remaining (app.py lines 85, 233–236) -/

/-- `total_plan = day_totals_lg.Quantity_tons.sum()` (app.py 85). -/
def total_plan (recs : List LGDispatch) : ℚ :=
  ((day_totals_lg recs).map Prod.snd).sum

/-- `dispatched_cum = day_totals_lg.query("Day<=@end_day")["Quantity_tons"].sum()`
(app.py 233). -/
def dispatched_cum (recs : List LGDispatch) (ed : ℤ) : ℚ :=
  (((day_totals_lg recs).filter (fun p => p.1 ≤ ed)).map Prod.snd).sum

/-- `remaining_t = total_plan - dispatched_cum` (app.py 235). -/
def remaining_t (recs : List LGDispatch) (ed : ℤ) : ℚ :=
  total_plan recs - dispatched_cum recs ed

/-- `days_rem = math.ceil(remaining_t/DAILY_CAP) if DAILY_CAP else None`
(app.py 236): Python truthiness guards only a zero capacity — a zero
remaining volume is not special-cased. -/
def days_rem (cap remaining : ℚ) : Option ℤ :=
  if cap ≠ 0 then some ⌈remaining / cap⌉ else none

/-- **C2 counterexample.** With a single LG→FPS dispatch of 5 tons on day 1
and `end_day = 1`, the remaining volume is 0 and `DAILY_CAP = 1` is nonzero,
yet `days_rem` is the number 0, not an absent value — refuting the claim
that a zero remaining volume is reported as unavailable. -/
theorem C2_days_remaining_counterexample :
    remaining_t [⟨1, 1, 1, 1, 5⟩] 1 = 0 ∧
    days_rem 1 (remaining_t [⟨1, 1, 1, 1, 5⟩] 1) = some 0 := by
  have h : remaining_t [⟨1, 1, 1, 1, 5⟩] 1 = 0 := by
    norm_num [remaining_t, total_plan, dispatched_cum, day_totals_lg]
  refine ⟨h, ?_⟩
  rw [h]
  norm_num [days_rem]

/-- **C2 (amended).** Whenever `DAILY_CAP` is nonzero the KPI equals
`ceil(remaining / DAILY_CAP)` — in particular the number 0, not an absent
value, when the remaining volume is 0 — and it is reported as unavailable
(`None`) exactly when `DAILY_CAP` is zero. -/
theorem C2_days_remaining_amended (cap : ℚ) (recs : List LGDispatch) (ed : ℤ) :
    (cap ≠ 0 →
      days_rem cap (remaining_t recs ed) = some ⌈remaining_t recs ed / cap⌉) ∧
    (cap ≠ 0 → remaining_t recs ed = 0 →
      days_rem cap (remaining_t recs ed) = some 0) ∧
    (days_rem cap (remaining_t recs ed) = none ↔ cap = 0) := by
  refine ⟨fun h => if_pos h, fun h h0 => ?_, ?_⟩
  · rw [h0]
    unfold days_rem
    rw [if_pos h]
    norm_num
  · unfold days_rem
    by_cases h : cap = 0
    · simp [h]
    · simp [h]

/-- Witness for C2 (amended) at `DAILY_CAP = 1` with the remaining volume 0
of the counterexample data. -/
theorem C2_days_remaining_amended_witness :
    days_rem 1 (remaining_t [⟨1, 1, 1, 1, 5⟩] 1) =
      some ⌈remaining_t [⟨1, 1, 1, 1, 5⟩] 1 / 1⌉ ∧
    days_rem 1 (remaining_t [⟨1, 1, 1, 1, 5⟩] 1) = some 0 :=
  ⟨(C2_days_remaining_amended 1 [⟨1, 1, 1, 1, 5⟩] 1).1 (by norm_num),
   (C2_days_remaining_amended 1 [⟨1, 1, 1, 1, 5⟩] 1).2.1 (by norm_num)
     (by norm_num [remaining_t, total_plan, dispatched_cum, day_totals_lg])⟩

/-! ### Sidebar totals and KPI daily averages (app.py lines 108–109, 221–223) -/

/-- `cg_sel`: the CG→LG total over the selected window `[lo, hi]`
(app.py 108). -/
def cg_sel (recs : List CGDispatch) (lo hi : ℤ) : ℚ :=
  (((day_totals_cg recs).filter (fun p => lo ≤ p.1 ∧ p.1 ≤ hi)).map Prod.snd).sum

/-- `lg_sel`: the LG→FPS total over `[1, hi]` — the lower bound is
hard-coded to 1, not the selected lower bound (app.py 109). -/
def lg_sel (recs : List LGDispatch) (hi : ℤ) : ℚ :=
  (((day_totals_lg recs).filter (fun p => 1 ≤ p.1 ∧ p.1 ≤ hi)).map Prod.snd).sum

/-- `sel_days = day_range[1] - max(day_range[0], 1) + 1` (app.py 221). -/
def sel_days (lo hi : ℤ) : ℤ := hi - max lo 1 + 1

/-- `avg_daily_cg = cg_sel/sel_days if sel_days>0 else 0` (app.py 222). -/
def avg_daily_cg (recs : List CGDispatch) (lo hi : ℤ) : ℚ :=
  if 0 < sel_days lo hi then cg_sel recs lo hi / (sel_days lo hi : ℚ) else 0

/-- `avg_daily_lg = lg_sel/sel_days if sel_days>0 else 0` (app.py 223). -/
def avg_daily_lg (recs : List LGDispatch) (lo hi : ℤ) : ℚ :=
  if 0 < sel_days lo hi then lg_sel recs hi / (sel_days lo hi : ℚ) else 0

lemma filter_filter_sum {α : Type} (day : α → ℤ) (qty : α → ℚ)
    (p : ℤ → Bool) (recs : List α) :
    ((((recs.map day).dedup).filter (fun d => p d)).map
        (fun d => ((recs.filter (fun r => day r = d)).map qty).sum)).sum =
      ((recs.filter (fun r => p (day r))).map qty).sum := by
  have hnd : (((recs.map day).dedup).filter (fun d => p d)).Nodup :=
    (List.nodup_dedup _).filter _
  have hcov : ∀ x ∈ recs.filter (fun r => p (day r)),
      day x ∈ ((recs.map day).dedup).filter (fun d => p d) := by
    intro x hx
    have hx' := List.mem_filter.mp hx
    exact List.mem_filter.mpr
      ⟨List.mem_dedup.mpr (List.mem_map_of_mem day hx'.1), hx'.2⟩
  have hmain := sum_groupby_eq_sum day qty _ hnd (recs.filter (fun r => p (day r))) hcov
  rw [← hmain]
  congr 1
  apply List.map_congr_left
  intro k hk
  have hpk : p k = true := (List.mem_filter.mp hk).2
  congr 1
  have hsub : ∀ a ∈ recs.filter (fun x => day x = k), p (day a) = true := by
    intro a ha
    have hak : day a = k := by simpa using (List.mem_filter.mp ha).2
    rw [hak]; exact hpk
  rw [List.filter_comm]
  exact (congrArg (List.map qty) (List.filter_eq_self.mpr hsub)).symm

lemma day_totals_filter_sum {α : Type} (day : α → ℤ) (qty : α → ℚ)
    (p : ℤ → Bool) (recs : List α) :
    (((((recs.map day).dedup).map (fun d =>
        (d, ((recs.filter (fun r => day r = d)).map qty).sum))).filter
          (fun q => p q.1)).map Prod.snd).sum =
      ((recs.filter (fun r => p (day r))).map qty).sum := by
  rw [List.filter_map, List.map_map]
  have hcomp1 : ((fun q : ℤ × ℚ => p q.1) ∘ (fun d =>
      (d, ((recs.filter (fun r => day r = d)).map qty).sum))) = fun d => p d := rfl
  have hcomp2 : (Prod.snd ∘ (fun d : ℤ =>
      (d, ((recs.filter (fun r => day r = d)).map qty).sum))) =
      fun d => ((recs.filter (fun r => day r = d)).map qty).sum := rfl
  rw [hcomp1, hcomp2]
  exact filter_filter_sum day qty p recs

/-- **C9 counterexample.** With a single LG→FPS dispatch of 6 tons on day 1
and the selected range `[5, 10]` (reachable: with no CG demand `X = 0` and
a 10-day horizon gives bounds `[1, 10]` — irrelevant to the computation),
the code's average is `6/6 = 1` t/d, while the claimed value — the total
restricted to the selected range `[5, 10]` divided by its 6 days — is 0. -/
theorem C9_daily_average_counterexample :
    avg_daily_lg [⟨1, 1, 1, 1, 6⟩] 5 10 = 1 ∧
    (((day_totals_lg [⟨1, 1, 1, 1, 6⟩]).filter
        (fun p => 5 ≤ p.1 ∧ p.1 ≤ 10)).map Prod.snd).sum / ((10 - 5 + 1 : ℤ) : ℚ)
      = 0 ∧
    (1 : ℚ) ≠ 0 := by
  have hmax : max (5 : ℤ) 1 = 5 := by norm_num
  refine ⟨?_, ?_, by norm_num⟩
  · norm_num [avg_daily_lg, lg_sel, day_totals_lg, sel_days, hmax]
  · norm_num [day_totals_lg]

/-- **C9 (amended).** Both averages divide by the day count
`hi − max(lo, 1) + 1` (not by the size of the selected range when `lo < 1`);
the CG→LG numerator is the raw dispatch total over `[lo, hi]`, but the
LG→FPS numerator is the raw total over `[1, hi]` regardless of the selected
lower bound; both averages are 0 when that day count is nonpositive. -/
theorem C9_daily_average_amended (cg : List CGDispatch) (lgd : List LGDispatch)
    (lo hi : ℤ) :
    (0 < sel_days lo hi →
      avg_daily_cg cg lo hi =
        ((cg.filter (fun r => lo ≤ r.dispatch_day ∧ r.dispatch_day ≤ hi)).map
          (fun r => r.quantity_tons)).sum / (sel_days lo hi : ℚ) ∧
      avg_daily_lg lgd lo hi =
        ((lgd.filter (fun r => 1 ≤ r.day ∧ r.day ≤ hi)).map
          (fun r => r.quantity_tons)).sum / (sel_days lo hi : ℚ)) ∧
    (sel_days lo hi ≤ 0 →
      avg_daily_cg cg lo hi = 0 ∧ avg_daily_lg lgd lo hi = 0) := by
  constructor
  · intro hpos
    constructor
    · unfold avg_daily_cg cg_sel day_totals_cg
      rw [if_pos hpos]
      congr 1
      exact day_totals_filter_sum (fun r => r.dispatch_day) (fun r => r.quantity_tons)
        (fun d => lo ≤ d ∧ d ≤ hi) cg
    · unfold avg_daily_lg lg_sel day_totals_lg
      rw [if_pos hpos]
      congr 1
      exact day_totals_filter_sum (fun r => r.day) (fun r => r.quantity_tons)
        (fun d => 1 ≤ d ∧ d ≤ hi) lgd
  · intro hle
    have hnot : ¬ 0 < sel_days lo hi := not_lt.mpr hle
    exact ⟨if_neg hnot, if_neg hnot⟩

/-- Witness for C9 (amended): one CG dispatch on day 5 (4 t), one LG→FPS
dispatch on day 1 (6 t), window `[5, 10]` (day count 6 > 0). -/
theorem C9_daily_average_amended_witness :
    avg_daily_cg [⟨5, 1, 4⟩] 5 10 =
      (([⟨5, 1, 4⟩].filter (fun r : CGDispatch =>
        5 ≤ r.dispatch_day ∧ r.dispatch_day ≤ 10)).map
          (fun r => r.quantity_tons)).sum / ((sel_days 5 10 : ℤ) : ℚ) ∧
    avg_daily_lg [⟨1, 1, 1, 1, 6⟩] 5 10 =
      (([⟨1, 1, 1, 1, 6⟩].filter (fun r : LGDispatch =>
        1 ≤ r.day ∧ r.day ≤ 10)).map
          (fun r => r.quantity_tons)).sum / ((sel_days 5 10 : ℤ) : ℚ) :=
  (C9_daily_average_amended [⟨5, 1, 4⟩] [⟨1, 1, 1, 1, 6⟩] 5 10).1 (by decide)

/-! ### Per-shop projection (app.py lines 173–189) -/

/-- `end_day = min(day_range[1], DAYS)` (app.py 175). -/
def end_day_of (hi : ℤ) (DAYS : ℕ) : ℤ := min hi (DAYS : ℤ)

/-- `stock_now` (app.py 178–179): the stock level of this shop's `fps_stock`
row at exactly `end_day` (at most one row, per the one-snapshot-per-entity-
per-day invariant), `0.0` when the query is empty.  No earlier snapshot is
consulted. -/
def stock_now (rows : List FPSStockRow) (fid : ℕ) (ed : ℤ) : ℚ :=
  (((rows.filter (fun r => r.fps_id = fid ∧ r.day = ed)).map
    (fun r => r.stock_level_tons)).head?).getD 0

/-- Minimum of a list of days (`Series.min()`), absent for an empty list. -/
def listMin : List ℤ → Option ℤ
  | [] => none
  | a :: l =>
    match listMin l with
    | none => some a
    | some b => some (min a b)

/-- `next_day` (app.py 180–181): the earliest `Day` among LG→FPS dispatches
to this shop strictly after `end_day`, absent when there are none. -/
def next_receipt_day (recs : List LGDispatch) (fid : ℕ) (ed : ℤ) : Option ℤ :=
  listMin ((recs.filter (fun r => r.fps_id = fid ∧ ed < r.day)).map (fun r => r.day))

/-- `days_to = (next_day - end_day) if next_day else None` (app.py 182):
Python truthiness makes the gap absent also when `next_day` is the number
0, not only when it is `None`. -/
def days_to_receipt (recs : List LGDispatch) (fid : ℕ) (ed : ℤ) : Option ℤ :=
  match next_receipt_day recs fid ed with
  | none => none
  | some n => if n ≠ 0 then some (n - ed) else none

lemma listMin_eq_none_iff (l : List ℤ) : listMin l = none ↔ l = [] := by
  cases l with
  | nil => simp [listMin]
  | cons a t =>
    cases ht : listMin t <;> simp [listMin, ht]

lemma listMin_mem {l : List ℤ} {m : ℤ} (h : listMin l = some m) : m ∈ l := by
  induction l generalizing m with
  | nil => simp [listMin] at h
  | cons a t ih =>
    cases ht : listMin t with
    | none =>
      simp [listMin, ht] at h
      exact h ▸ List.mem_cons_self a t
    | some b =>
      simp [listMin, ht] at h
      subst h
      rcases le_total a b with hab | hab
      · rw [min_eq_left hab]
        exact List.mem_cons_self a t
      · rw [min_eq_right hab]
        exact List.mem_cons_of_mem a (ih ht)

lemma listMin_le {l : List ℤ} {m : ℤ} (h : listMin l = some m) :
    ∀ x ∈ l, m ≤ x := by
  induction l generalizing m with
  | nil => simp [listMin] at h
  | cons a t ih =>
    intro x hx
    cases ht : listMin t with
    | none =>
      have hte : t = [] := (listMin_eq_none_iff t).mp ht
      subst hte
      simp [listMin] at h
      simp at hx
      omega
    | some b =>
      simp [listMin, ht] at h
      subst h
      rcases List.mem_cons.mp hx with rfl | hx2
      · exact min_le_left _ _
      · exact le_trans (min_le_right _ _) (ih ht x hx2)

/-- **C3 counterexample.** Shop 1 has a snapshot at day 1 with 7 tons and
none at day 2; at reference day 2 the projection reports stock 0 even
though a snapshot at-or-before day 2 with nonzero stock exists — refuting
"zero exactly when no snapshot exists at or before that day". -/
theorem C3_projection_counterexample :
    stock_now (fps_stock [⟨Entity.FPS, 1, 1, 7⟩] [⟨1, 3⟩]) 1 2 = 0 ∧
    ∃ r ∈ fps_stock [⟨Entity.FPS, 1, 1, 7⟩] [⟨1, 3⟩],
      r.fps_id = 1 ∧ r.day ≤ 2 ∧ r.stock_level_tons ≠ 0 := by
  decide

/-- **C3 (amended).** Per-shop projection: the reported current stock is the
snapshot value at exactly the reference day (0 when no snapshot exists at
that exact day — earlier snapshots are ignored); the next-receipt day is the
earliest dispatch day strictly after the reference day among the shop's
LG→FPS records, absent when none exists; the gap is that day minus the
reference day provided the next-receipt day is nonzero. -/
theorem C3_projection_amended (rows : List FPSStockRow) (recs : List LGDispatch)
    (fid : ℕ) (ed : ℤ) :
    (∀ r ∈ rows, r.fps_id = fid → r.day = ed →
      (∀ r2 ∈ rows, r2.fps_id = fid → r2.day = ed → r2 = r) →
      stock_now rows fid ed = r.stock_level_tons) ∧
    ((∀ r ∈ rows, ¬(r.fps_id = fid ∧ r.day = ed)) → stock_now rows fid ed = 0) ∧
    (∀ n, next_receipt_day recs fid ed = some n →
      (∃ r ∈ recs, r.fps_id = fid ∧ ed < r.day ∧ r.day = n) ∧
      (∀ r ∈ recs, r.fps_id = fid → ed < r.day → n ≤ r.day)) ∧
    (next_receipt_day recs fid ed = none ↔
      ∀ r ∈ recs, ¬(r.fps_id = fid ∧ ed < r.day)) ∧
    (∀ n, next_receipt_day recs fid ed = some n → n ≠ 0 →
      days_to_receipt recs fid ed = some (n - ed)) := by
  refine ⟨?_, ?_, ?_, ?_, ?_⟩
  · intro r hr hfid hday huniq
    have hrf : r ∈ rows.filter (fun r => r.fps_id = fid ∧ r.day = ed) :=
      List.mem_filter.mpr ⟨hr, by simp [hfid, hday]⟩
    cases hfl : rows.filter (fun r => r.fps_id = fid ∧ r.day = ed) with
    | nil => rw [hfl] at hrf; cases hrf
    | cons s t =>
      have hsf : s ∈ rows.filter (fun r => r.fps_id = fid ∧ r.day = ed) := by
        rw [hfl]; exact List.mem_cons_self s t
      have hs := List.mem_filter.mp hsf
      have hsp : s.fps_id = fid ∧ s.day = ed := by simpa using hs.2
      have hseq : s = r := huniq s hs.1 hsp.1 hsp.2
      unfold stock_now
      rw [hfl]
      simp [hseq]
  · intro hnone
    have hfl : rows.filter (fun r => r.fps_id = fid ∧ r.day = ed) = [] := by
      rw [List.filter_eq_nil]
      intro r hr
      simpa using hnone r hr
    unfold stock_now
    rw [hfl]
    rfl
  · intro n hn
    unfold next_receipt_day at hn
    constructor
    · have hmem := listMin_mem hn
      rcases List.mem_map.mp hmem with ⟨r, hrf, hrd⟩
      have hr := List.mem_filter.mp hrf
      have hrp : r.fps_id = fid ∧ ed < r.day := by simpa using hr.2
      exact ⟨r, hr.1, hrp.1, hrp.2, hrd⟩
    · intro r hr hfid hlt
      apply listMin_le hn
      exact List.mem_map.mpr ⟨r, List.mem_filter.mpr ⟨hr, by simp [hfid, hlt]⟩, rfl⟩
  · unfold next_receipt_day
    rw [listMin_eq_none_iff, List.map_eq_nil, List.filter_eq_nil]
    constructor
    · intro h r hr
      simpa using h r hr
    · intro h r hr
      simpa using h r hr
  · intro n hn hne
    unfold days_to_receipt
    rw [hn]
    simp [hne]

/-- Witness for C3 (amended): shop 1 with a snapshot (7 t) at day 1 joined
to threshold 3, and dispatches to it on days 3 and 5; at reference day 1 the
stock is 7, the next receipt is day 3, and the gap is 2 days. -/
theorem C3_projection_amended_witness :
    stock_now (fps_stock [⟨Entity.FPS, 1, 1, 7⟩] [⟨1, 3⟩]) 1 1 = 7 ∧
    ((∃ r ∈ [(⟨3, 1, 1, 1, 2⟩ : LGDispatch), ⟨5, 1, 1, 2, 2⟩],
        r.fps_id = 1 ∧ (1 : ℤ) < r.day ∧ r.day = 3) ∧
      (∀ r ∈ [(⟨3, 1, 1, 1, 2⟩ : LGDispatch), ⟨5, 1, 1, 2, 2⟩],
        r.fps_id = 1 → (1 : ℤ) < r.day → 3 ≤ r.day)) ∧
    days_to_receipt [⟨3, 1, 1, 1, 2⟩, ⟨5, 1, 1, 2, 2⟩] 1 1 = some (3 - 1) :=
  ⟨(C3_projection_amended (fps_stock [⟨Entity.FPS, 1, 1, 7⟩] [⟨1, 3⟩])
      [⟨3, 1, 1, 1, 2⟩, ⟨5, 1, 1, 2, 2⟩] 1 1).1 ⟨1, 1, 7, 3⟩
      (by decide) (by decide) (by decide) (by decide),
   (C3_projection_amended (fps_stock [⟨Entity.FPS, 1, 1, 7⟩] [⟨1, 3⟩])
      [⟨3, 1, 1, 1, 2⟩, ⟨5, 1, 1, 2, 2⟩] 1 1).2.2.1 3 (by decide),
   (C3_projection_amended (fps_stock [⟨Entity.FPS, 1, 1, 7⟩] [⟨1, 3⟩])
      [⟨3, 1, 1, 1, 2⟩, ⟨5, 1, 1, 2, 2⟩] 1 1).2.2.2.2 3 (by decide) (by decide)⟩

/-! ### KPI rollup (app.py lines 219–236)

The Metrics tab computes a fixed list of scalars.  Two lookups can raise:
`lg_stock.loc[end_day, selected_lgs]` (line 227) raises a `KeyError` when
`end_day` is not a row of the pivot index or a selected LG is not one of its
columns, and `lgs.set_index("LG_ID").loc[selected_lgs, ...]` (line 229)
raises when a selected LG is missing from the LG registry.  Every other step
is total (`mean()` of an empty selection is `NaN`, modelled as `none`). -/

/-- `lg_stock.columns`: the distinct LG ids among LG snapshots — the
universe the sidebar checkboxes iterate over (app.py 103). -/
def lgColumns (snaps : List StockSnapshot) : List ℕ :=
  ((snaps.filter (fun s => s.entity_type = Entity.LG)).map (fun s => s.entity_id)).dedup

/-- `veh_usage` for day `d`:
`dispatch_lg.groupby("Day")["Vehicle_ID"].nunique()` (app.py 64–67). -/
def trips_used (recs : List LGDispatch) (d : ℤ) : ℕ :=
  (((recs.filter (fun r => r.day = d)).map (fun r => r.vehicle_id)).dedup).length

/-- The group keys of `veh_usage`: days with at least one LG→FPS record. -/
def veh_days (recs : List LGDispatch) : List ℤ := (recs.map (fun r => r.day)).dedup

/-- `avg_trips = veh_usage.query("Day>=1 & Day<=@day_range[1]")["Trips_Used"].mean()`
(app.py 224): the mean over an empty selection is `NaN` (`none`). -/
def avg_trips (recs : List LGDispatch) (hi : ℤ) : Option ℚ :=
  if (veh_days recs).filter (fun d => 1 ≤ d ∧ d ≤ hi) = [] then none
  else some ((((veh_days recs).filter (fun d => 1 ≤ d ∧ d ≤ hi)).map
    (fun d => (trips_used recs d : ℚ))).sum /
      ((((veh_days recs).filter (fun d => 1 ≤ d ∧ d ≤ hi)).length : ℚ)))

/-- `pct_fleet = (avg_trips / MAX_TRIPS)*100 if MAX_TRIPS else 0`
(app.py 225); a `NaN` average propagates through the division. -/
def pct_fleet (recs : List LGDispatch) (hi : ℤ) (maxTrips : ℕ) : Option ℚ :=
  if maxTrips ≠ 0 then (avg_trips recs hi).map (fun t => t / (maxTrips : ℚ) * 100)
  else some 0

/-- `fps_onhand = fps_stock.query("Day==@end_day")["Stock_Level_tons"].sum()`
(app.py 228). -/
def fps_onhand (rows : List FPSStockRow) (ed : ℤ) : ℚ :=
  ((rows.filter (fun r => r.day = ed)).map (fun r => r.stock_level_tons)).sum

/-- `fps_zero`: distinct shops with zero stock at `end_day` (app.py 231). -/
def fps_zero (rows : List FPSStockRow) (ed : ℤ) : ℕ :=
  (((rows.filter (fun r => r.day = ed ∧ r.stock_level_tons = 0)).map
    (fun r => r.fps_id)).dedup).length

/-- `fps_risk`: distinct at-risk shops at `end_day` (app.py 232). -/
def fps_risk (rows : List FPSStockRow) (ed : ℤ) : ℕ :=
  (((rows.filter (fun r => r.day = ed ∧ at_risk r = true)).map
    (fun r => r.fps_id)).dedup).length

/-- `lgs.set_index("LG_ID").loc[lg, "Storage_Capacity_tons"]` for one id. -/
def lookup_cap (lgReg : List LGInfo) (lg : ℕ) : Option ℚ :=
  ((lgReg.filter (fun g => g.lg_id = lg)).map (fun g => g.storage_capacity_tons)).head?

/-- `pct_plan = (dispatched_cum/total_plan)*100 if total_plan else 0`
(app.py 234). -/
def pct_plan (recs : List LGDispatch) (ed : ℤ) : ℚ :=
  if total_plan recs ≠ 0 then dispatched_cum recs ed / total_plan recs * 100 else 0

/-- The scalar KPI values of the Metrics tab (app.py 238–252), in source
order.  `Option` fields are `none` where the dashboard would show `NaN`
(empty-selection mean) or Python `None`. -/
structure KPIValues where
  cgTotal : ℚ
  lgTotal : ℚ
  avgCg : ℚ
  avgLg : ℚ
  avgTrips : Option ℚ
  pctFleet : Option ℚ
  lgOnHand : ℚ
  fpsOnHand : ℚ
  lgCaps : ℚ
  pctLgFilled : ℚ
  fpsZero : ℕ
  fpsRisk : ℕ
  pctPlan : ℚ
  remaining : ℚ
  daysRem : Option ℤ
deriving DecidableEq, Repr

/-- The tab-7 KPI block (app.py 219–236) as a fallible computation; the
error cases are exactly the two raising lookups described above, checked in
source order. -/
def kpiBlock (cg : List CGDispatch) (lgd : List LGDispatch)
    (snaps : List StockSnapshot) (fpsReg : List FPSInfo) (lgReg : List LGInfo)
    (maxTrips : ℕ) (cap : ℚ) (DAYS : ℕ) (lo hi : ℤ) (selected : List ℕ) :
    Except String KPIValues :=
  if end_day_of hi DAYS ∈ lgDays snaps then
    if ∀ lg ∈ selected, lg ∈ lgColumns snaps then
      if ∀ lg ∈ selected, (lookup_cap lgReg lg).isSome = true then
        Except.ok
          ⟨cg_sel cg lo hi,
           lg_sel lgd hi,
           avg_daily_cg cg lo hi,
           avg_daily_lg lgd lo hi,
           avg_trips lgd hi,
           pct_fleet lgd hi maxTrips,
           lg_onhand snaps selected (end_day_of hi DAYS),
           fps_onhand (fps_stock snaps fpsReg) (end_day_of hi DAYS),
           (selected.filterMap (lookup_cap lgReg)).sum,
           (if (selected.filterMap (lookup_cap lgReg)).sum ≠ 0 then
             lg_onhand snaps selected (end_day_of hi DAYS) /
               (selected.filterMap (lookup_cap lgReg)).sum * 100 else 0),
           fps_zero (fps_stock snaps fpsReg) (end_day_of hi DAYS),
           fps_risk (fps_stock snaps fpsReg) (end_day_of hi DAYS),
           pct_plan lgd (end_day_of hi DAYS),
           remaining_t lgd (end_day_of hi DAYS),
           days_rem cap (remaining_t lgd (end_day_of hi DAYS))⟩
      else Except.error "KeyError: selected LG missing from LG registry"
    else Except.error "KeyError: selected LG missing from lg_stock columns"
  else Except.error "KeyError: end_day not in lg_stock index"

/-- **C6 counterexample.** Horizon 1 day, `DAILY_CAP = 1`, one CG demand of
2 tons on day 1, so `X = 1` and the slider lower bound is 0: the selection
`(0, 0)` has zero selected days.  The only LG snapshot is at day 1, so
`end_day = 0` is not a row of `lg_stock` and the KPI block raises a
`KeyError` instead of degrading — refuting the claim that an empty
selection never propagates as a failure. -/
theorem C6_kpi_empty_selection_counterexample :
    sel_days 0 0 = 0 ∧
    minDay 1 (fun d => daily_total_cg [⟨1, 1, 2⟩] (d : ℤ)) 1 = 0 ∧
    kpiBlock [⟨1, 1, 2⟩] [] [⟨Entity.LG, 1, 1, 5⟩] [] [⟨1, 10⟩] 1 1 1 0 0 [1] =
      Except.error "KeyError: end_day not in lg_stock index" := by
  refine ⟨by decide, ?_, by rfl⟩
  have hr : List.range 1 = [0] := rfl
  have h1 : cumNeed (fun d => daily_total_cg [⟨1, 1, 2⟩] (d : ℤ)) 1 = 2 := by
    norm_num [cumNeed, daily_total_cg, hr]
  have h2 : advDay 1 (fun d => daily_total_cg [⟨1, 1, 2⟩] (d : ℤ)) 1 = 1 := by
    unfold advDay
    rw [h1]
    norm_num
  have h3 : leadTimeX 1 (fun d => daily_total_cg [⟨1, 1, 2⟩] (d : ℤ)) 1 = 1 := by
    unfold leadTimeX
    rw [hr]
    simp only [List.map_cons, List.map_nil, Nat.zero_add, h2, List.foldr_cons,
      List.foldr_nil]
    decide
  unfold minDay
  rw [h3]
  decide

/-- **C6 (amended).** When the end day is a row of the LG stock timeline and
every selected LG is a pivot column and a registry entry, the KPI block
completes without raising; an empty LG selection degrades to
`lg_onhand = 0`, `lg_caps = 0` and a 0% fill, and a selection with zero
selected days degrades both daily averages to 0.  But a zero-day selection
whose end day has no LG snapshot row makes the block raise a `KeyError`
(the counterexample), so empty selections are not raise-free in general. -/
theorem C6_kpi_degrade_amended (cg : List CGDispatch) (lgd : List LGDispatch)
    (snaps : List StockSnapshot) (fpsReg : List FPSInfo) (lgReg : List LGInfo)
    (maxTrips : ℕ) (cap : ℚ) (DAYS : ℕ) (lo hi : ℤ) (selected : List ℕ)
    (hrow : end_day_of hi DAYS ∈ lgDays snaps)
    (hcols : ∀ lg ∈ selected, lg ∈ lgColumns snaps)
    (hreg : ∀ lg ∈ selected, (lookup_cap lgReg lg).isSome = true) :
    ∃ k, kpiBlock cg lgd snaps fpsReg lgReg maxTrips cap DAYS lo hi selected =
        Except.ok k ∧
      (selected = [] → k.lgOnHand = 0 ∧ k.lgCaps = 0 ∧ k.pctLgFilled = 0) ∧
      (sel_days lo hi ≤ 0 → k.avgCg = 0 ∧ k.avgLg = 0) := by
  unfold kpiBlock
  rw [if_pos hrow, if_pos hcols, if_pos hreg]
  refine ⟨_, rfl, ?_, ?_⟩
  · rintro rfl
    refine ⟨by simp [lg_onhand, optSum], by simp, by simp [lg_onhand, optSum]⟩
  · intro hsd
    have hnot : ¬ 0 < sel_days lo hi := not_lt.mpr hsd
    constructor
    · show avg_daily_cg cg lo hi = 0
      unfold avg_daily_cg
      exact if_neg hnot
    · show avg_daily_lg lgd lo hi = 0
      unfold avg_daily_lg
      exact if_neg hnot

/-- Witness for C6 (amended): LG snapshots at days 0 and 1, selection
`(0, 0)` (zero selected days) with an empty LG selection; `end_day = 0` is
a pivot row, so the block returns values with both degradations. -/
theorem C6_kpi_degrade_amended_witness :
    ∃ k, kpiBlock [] [] [⟨Entity.LG, 1, 0, 5⟩, ⟨Entity.LG, 1, 1, 5⟩] [] []
        1 1 1 0 0 [] = Except.ok k ∧
      (([] : List ℕ) = [] → k.lgOnHand = 0 ∧ k.lgCaps = 0 ∧ k.pctLgFilled = 0) ∧
      (sel_days 0 0 ≤ 0 → k.avgCg = 0 ∧ k.avgLg = 0) :=
  C6_kpi_degrade_amended [] [] [⟨Entity.LG, 1, 0, 5⟩, ⟨Entity.LG, 1, 1, 5⟩] [] []
    1 1 1 0 0 [] (by decide) (by decide) (by decide)

end GrainDash
